import Mathlib

/-!
Shallow embedding of the slideshow export pipeline of mon-diaporama
(src/types.ts and the App component in src/unnamed/part_000).

Numbers are modelled as exact rationals.  Where a computation can produce a
non-finite IEEE value — the aspect-ratio division in drawSlideWithMotion and
the HTMLMediaElement duration read by handlePlayPause / handleExport — the
embedding uses the JsNum type below, whose arithmetic follows the IEEE rules
JavaScript numbers obey (NaN propagation, signed infinities; negative zero is
not modelled, and finite arithmetic is exact rather than rounded).
-/

namespace MonDiaporama

/-- Motion effect kinds, from src/types.ts. -/
inductive MotionEffect
  | none
  | zoomIn
  | zoomOut
  | panLeft
  | panRight
  | panUp
  | panDown
  | rotate
  deriving DecidableEq

/-- Transition effect kinds, from src/types.ts.  Stored in the settings but never
read by the export renderer. -/
inductive TransitionEffect
  | fade
  | slide
  | zoomIn
  | zoomOut
  deriving DecidableEq

/-- The slide fields the export pipeline reads (src/types.ts ImageSlide; the File
and objectUrl fields only feed image loading, which is modelled separately). -/
structure ImageSlide where
  id : ℕ
  motion : MotionEffect
  deriving DecidableEq

/-- SlideshowSettings from src/types.ts. -/
structure SlideshowSettings where
  slideDuration : ℚ
  transitionDuration : ℚ
  transitionEffect : TransitionEffect
  deriving DecidableEq

/-- The fields drawSlideWithMotion reads from an HTMLImageElement. -/
structure Img where
  naturalWidth : ℚ
  naturalHeight : ℚ
  deriving DecidableEq

/-- A fresh `new Image()` (what the loader resolves with on decode error,
src/unnamed/part_000 line 323): both natural dimensions are 0. -/
def blankImage : Img := ⟨0, 0⟩

/-- A JavaScript number: a finite (exact) rational, an infinity, or NaN. -/
inductive JsNum
  | num (q : ℚ)
  | posInf
  | negInf
  | nan
  deriving DecidableEq

/-- IEEE addition on JsNum. -/
def jsAdd : JsNum → JsNum → JsNum
  | JsNum.nan, _ => JsNum.nan
  | _, JsNum.nan => JsNum.nan
  | JsNum.posInf, JsNum.negInf => JsNum.nan
  | JsNum.negInf, JsNum.posInf => JsNum.nan
  | JsNum.posInf, _ => JsNum.posInf
  | _, JsNum.posInf => JsNum.posInf
  | JsNum.negInf, _ => JsNum.negInf
  | _, JsNum.negInf => JsNum.negInf
  | JsNum.num a, JsNum.num b => JsNum.num (a + b)

/-- IEEE negation on JsNum. -/
def jsNeg : JsNum → JsNum
  | JsNum.num q => JsNum.num (-q)
  | JsNum.posInf => JsNum.negInf
  | JsNum.negInf => JsNum.posInf
  | JsNum.nan => JsNum.nan

/-- IEEE subtraction on JsNum. -/
def jsSub (a b : JsNum) : JsNum := jsAdd a (jsNeg b)

/-- IEEE multiplication on JsNum (zero times an infinity is NaN). -/
def jsMul : JsNum → JsNum → JsNum
  | JsNum.nan, _ => JsNum.nan
  | _, JsNum.nan => JsNum.nan
  | JsNum.num a, JsNum.num b => JsNum.num (a * b)
  | JsNum.num a, JsNum.posInf =>
      if a = 0 then JsNum.nan else if 0 < a then JsNum.posInf else JsNum.negInf
  | JsNum.posInf, JsNum.num a =>
      if a = 0 then JsNum.nan else if 0 < a then JsNum.posInf else JsNum.negInf
  | JsNum.num a, JsNum.negInf =>
      if a = 0 then JsNum.nan else if 0 < a then JsNum.negInf else JsNum.posInf
  | JsNum.negInf, JsNum.num a =>
      if a = 0 then JsNum.nan else if 0 < a then JsNum.negInf else JsNum.posInf
  | JsNum.posInf, JsNum.posInf => JsNum.posInf
  | JsNum.posInf, JsNum.negInf => JsNum.negInf
  | JsNum.negInf, JsNum.posInf => JsNum.negInf
  | JsNum.negInf, JsNum.negInf => JsNum.posInf

/-- IEEE division on JsNum (finite over zero gives a signed infinity or NaN;
negative zero is not modelled, so finite over an infinity is plain 0). -/
def jsDiv : JsNum → JsNum → JsNum
  | JsNum.nan, _ => JsNum.nan
  | _, JsNum.nan => JsNum.nan
  | JsNum.num a, JsNum.num b =>
      if b = 0 then (if a = 0 then JsNum.nan else if 0 < a then JsNum.posInf else JsNum.negInf)
      else JsNum.num (a / b)
  | JsNum.num _, JsNum.posInf => JsNum.num 0
  | JsNum.num _, JsNum.negInf => JsNum.num 0
  | JsNum.posInf, JsNum.num b => if 0 ≤ b then JsNum.posInf else JsNum.negInf
  | JsNum.negInf, JsNum.num b => if 0 ≤ b then JsNum.negInf else JsNum.posInf
  | JsNum.posInf, JsNum.posInf => JsNum.nan
  | JsNum.posInf, JsNum.negInf => JsNum.nan
  | JsNum.negInf, JsNum.posInf => JsNum.nan
  | JsNum.negInf, JsNum.negInf => JsNum.nan

/-- IEEE strict less-than on JsNum; any comparison with NaN is false. -/
def jsLt : JsNum → JsNum → Bool
  | JsNum.nan, _ => false
  | _, JsNum.nan => false
  | JsNum.num a, JsNum.num b => decide (a < b)
  | JsNum.num _, JsNum.posInf => true
  | JsNum.num _, JsNum.negInf => false
  | JsNum.posInf, _ => false
  | JsNum.negInf, JsNum.negInf => false
  | JsNum.negInf, _ => true

/-- IEEE strict greater-than on JsNum. -/
def jsGt (a b : JsNum) : Bool := jsLt b a

/-- JavaScript isFinite on JsNum. -/
def jsNumFinite : JsNum → Bool
  | JsNum.num _ => true
  | _ => false

/-- Truncation toward zero, as JavaScript's remainder operator uses. -/
def jsTrunc (q : ℚ) : ℤ := if 0 ≤ q then ⌊q⌋ else ⌈q⌉

/-- JavaScript remainder x % d for finite operands: x − d·trunc(x/d).
All call sites in the source use a positive divisor (a period or a positive
track duration), so the d = 0 NaN case never arises and is not modelled. -/
def jsMod (x d : ℚ) : ℚ := x - d * jsTrunc (x / d)

/-- The scale / offset / rotation the switch in drawSlideWithMotion produces
(src/unnamed/part_000 lines 158-172).  The rotation is stored as a multiple of
π radians: the source computes `(progress - 0.5) * 2 * (Math.PI / 180)`, which
is `rotationPerPi · π` with `rotationPerPi = (progress - 0.5) * 2 * (1 / 180)`. -/
structure MotionTransform where
  scale : ℚ
  dx : ℚ
  dy : ℚ
  rotationPerPi : ℚ
  deriving DecidableEq

/-- The switch of drawSlideWithMotion (src/unnamed/part_000 lines 158-172): the
mutable locals start at scale 1.15, dx = dy = 0, rotation 0 and each case
overrides some of them. -/
def motionTransform (motion : MotionEffect) (progress : ℚ) (width height : ℚ) :
    MotionTransform :=
  match motion with
  | MotionEffect.zoomIn => ⟨1 + progress * 0.15, 0, 0, 0⟩
  | MotionEffect.zoomOut => ⟨1.15 - progress * 0.15, 0, 0, 0⟩
  | MotionEffect.panLeft => ⟨1.15, (0.5 - progress) * (width * 0.1), 0, 0⟩
  | MotionEffect.panRight => ⟨1.15, (progress - 0.5) * (width * 0.1), 0, 0⟩
  | MotionEffect.panUp => ⟨1.15, 0, (0.5 - progress) * (height * 0.1), 0⟩
  | MotionEffect.panDown => ⟨1.15, 0, (progress - 0.5) * (height * 0.1), 0⟩
  | MotionEffect.rotate => ⟨1.2, 0, 0, (progress - 0.5) * 2 * (1 / 180)⟩
  | MotionEffect.none => ⟨1.0, 0, 0, 0⟩

/-- The rectangle drawSlideWithMotion passes to ctx.drawImage. -/
structure Placement where
  renderWidth : JsNum
  renderHeight : JsNum
  xOffset : JsNum
  yOffset : JsNum
  deriving DecidableEq

/-- The cover-fit placement arithmetic of drawSlideWithMotion
(src/unnamed/part_000 lines 174-187), carried out in JsNum because the
aspect-ratio division `img.naturalWidth / img.naturalHeight` is unguarded and
produces NaN for the 0×0 blank placeholder image. -/
def coverPlacement (width height : ℚ) (t : MotionTransform) (img : Img) : Placement :=
  let imgAspect := jsDiv (JsNum.num img.naturalWidth) (JsNum.num img.naturalHeight)
  let canvasAspect := jsDiv (JsNum.num width) (JsNum.num height)
  let wh : JsNum × JsNum :=
    if jsGt imgAspect canvasAspect then
      let renderHeight := jsMul (JsNum.num height) (JsNum.num t.scale)
      (jsMul renderHeight imgAspect, renderHeight)
    else
      let renderWidth := jsMul (JsNum.num width) (JsNum.num t.scale)
      (renderWidth, jsDiv renderWidth imgAspect)
  let xOffset := jsAdd (jsDiv (jsSub (JsNum.num width) wh.1) (JsNum.num 2)) (JsNum.num t.dx)
  let yOffset := jsAdd (jsDiv (jsSub (JsNum.num height) wh.2) (JsNum.num 2)) (JsNum.num t.dy)
  ⟨wh.1, wh.2, xOffset, yOffset⟩

/-- Modelled from the spec's words (§4.1 image placement), for comparison with
`coverPlacement`: cover fit at the given scale — fit by height when the image
aspect ratio exceeds the frame aspect ratio, else by width — then center and
offset by (dx, dy). -/
def coverFitSpec (width height : ℚ) (t : MotionTransform) (iw ih : ℚ) : Placement :=
  if width / height < iw / ih then
    ⟨JsNum.num (height * t.scale * (iw / ih)), JsNum.num (height * t.scale),
     JsNum.num ((width - height * t.scale * (iw / ih)) / 2 + t.dx),
     JsNum.num ((height - height * t.scale) / 2 + t.dy)⟩
  else
    ⟨JsNum.num (width * t.scale), JsNum.num (width * t.scale / (iw / ih)),
     JsNum.num ((width - width * t.scale) / 2 + t.dx),
     JsNum.num ((height - width * t.scale / (iw / ih)) / 2 + t.dy)⟩

/-- One canvas side effect of the renderer: the black fillRect over the whole
frame, or a drawImage call — each recorded with the globalAlpha in force when
it executes. -/
inductive CanvasOp
  | fillRect (alpha : ℚ)
  | drawImageOp (img : Img) (p : Placement) (rotationPerPi : ℚ) (alpha : ℚ)
  deriving DecidableEq

/-- drawSlideWithMotion (src/unnamed/part_000 lines 153-194) as the list of
canvas operations it performs: an opaque-over-current-alpha black background
fill, then one drawImage with the cover-fit placement of the motion transform.
`alpha` is the ambient ctx.globalAlpha at call time (the function's save /
restore pair leaves it unchanged). -/
def drawSlideWithMotion (width height : ℚ) (slide : ImageSlide) (img : Img)
    (progress : ℚ) (alpha : ℚ) : List CanvasOp :=
  let t := motionTransform slide.motion progress width height
  [CanvasOp.fillRect alpha,
   CanvasOp.drawImageOp img (coverPlacement width height t img) t.rotationPerPi alpha]

/-- Whether a recorded canvas operation paints nothing: per the HTML canvas
specification, drawImage returns without painting when any coordinate of the
destination rectangle is non-finite, and also when the image has no usable
pixel data (a fresh `new Image()` with zero natural dimensions). -/
def canvasOpSkipped : CanvasOp → Bool
  | CanvasOp.fillRect _ => false
  | CanvasOp.drawImageOp img p _ _ =>
      !(jsNumFinite p.renderWidth && jsNumFinite p.renderHeight &&
        jsNumFinite p.xOffset && jsNumFinite p.yOffset) ||
      decide (img.naturalWidth = 0) || decide (img.naturalHeight = 0)

/-- The operations of a trace that actually paint pixels. -/
def effectiveOps (ops : List CanvasOp) : List CanvasOp :=
  ops.filter (fun op => !canvasOpSkipped op)

/-- The scheduler's classification of a timeline instant, as the spec's §4.3
names the branches of render() (src/unnamed/part_000 lines 332-371).
Indices are integers because the source takes Math.floor without wrapping. -/
inductive Phase
  | Steady (slideIndex : ℤ) (progress : ℚ)
  | Transitioning (fromIndex toIndex : ℤ) (progress : ℚ)
  | End
  deriving DecidableEq

/-- The timeline scheduling inlined in render() (src/unnamed/part_000 lines
332-367), extracted as a pure function: the early `elapsed >= totalDuration`
return, the floor-division slide index, the remainder time-in-period, the
steady test `timeInPeriod < slideDuration || transitionDuration === 0`, and the
last-slide hold `nextSlideIndex >= slides.length`. -/
def locate (elapsed : ℚ) (slideDuration transitionDuration : ℚ) (slideCount : ℕ) :
    Phase :=
  let period := slideDuration + transitionDuration
  let totalDuration := (slideCount : ℚ) * period
  if totalDuration ≤ elapsed then Phase.End
  else
    let slideIndex : ℤ := ⌊elapsed / period⌋
    let timeInPeriod := jsMod elapsed period
    if timeInPeriod < slideDuration ∨ transitionDuration = 0 then
      Phase.Steady slideIndex (timeInPeriod / slideDuration)
    else
      let nextSlideIndex := slideIndex + 1
      if (slideCount : ℤ) ≤ nextSlideIndex then
        Phase.Steady slideIndex 1
      else
        Phase.Transitioning slideIndex nextSlideIndex
          ((timeInPeriod - slideDuration) / transitionDuration)

/-- The body of one render() iteration (src/unnamed/part_000 lines 332-367) as
the canvas operations it performs for a given elapsed time: nothing when the
timeline has ended (the recorder is stopped instead), one slide drawn with its
motion progress in the steady window, the held last slide at progress 1 in the
final transition window, and otherwise the from-slide at progress 1 followed —
under globalAlpha = transitionProgress — by the to-slide at progress 0.
Slides and their decoded images are read through total index functions; claim
C8's theorem shows every index the source dereferences is in bounds. -/
def renderFrame (settings : SlideshowSettings) (slideCount : ℕ)
    (slideAt : ℤ → ImageSlide) (imageAt : ℤ → Img)
    (width height : ℚ) (elapsed : ℚ) : List CanvasOp :=
  let period := settings.slideDuration + settings.transitionDuration
  let totalDuration := (slideCount : ℚ) * period
  if totalDuration ≤ elapsed then []
  else
    let slideIndex : ℤ := ⌊elapsed / period⌋
    let timeInPeriod := jsMod elapsed period
    let currentSlide := slideAt slideIndex
    let currentImage := imageAt slideIndex
    if timeInPeriod < settings.slideDuration ∨ settings.transitionDuration = 0 then
      drawSlideWithMotion width height currentSlide currentImage
        (timeInPeriod / settings.slideDuration) 1
    else
      let nextSlideIndex := slideIndex + 1
      let transitionProgress :=
        (timeInPeriod - settings.slideDuration) / settings.transitionDuration
      if (slideCount : ℤ) ≤ nextSlideIndex then
        drawSlideWithMotion width height currentSlide currentImage 1 1
      else
        drawSlideWithMotion width height currentSlide currentImage 1 1 ++
          drawSlideWithMotion width height (slideAt nextSlideIndex)
            (imageAt nextSlideIndex) 0 transitionProgress

/-- The export frame loop (src/unnamed/part_000 lines 330-372), fuel-indexed:
`some frames` means the loop reached its terminating recorder.stop() after
rendering exactly the frame indices in `frames` (each iteration increments the
counter by one and re-schedules itself); `none` means the fuel ran out first. -/
def renderLoopFuel (fuel : ℕ) (fps : ℕ) (totalDuration : ℚ) (frame : ℕ) :
    Option (List ℕ) :=
  match fuel with
  | 0 => Option.none
  | Nat.succ fuel' =>
    let elapsed := (frame : ℚ) / (fps : ℚ)
    if totalDuration ≤ elapsed then some []
    else Option.map (fun rest => frame :: rest)
      (renderLoopFuel fuel' fps totalDuration (frame + 1))

/-- Image preloading (src/unnamed/part_000 lines 319-326): a slide whose image
decodes gets its decoded image; onerror resolves with a fresh `new Image()`
placeholder instead of rejecting, so the export never aborts on decode
failure. -/
def loadSlideImage (decodeSucceeded : Bool) (decoded : Img) : Img :=
  if decodeSucceeded then decoded else blankImage

/-- Music behavior selector (src/unnamed/part_000 line 5). -/
inductive MusicBehavior
  | loop
  | fade
  deriving DecidableEq

/-- The fade parameters handleExport schedules on the gain node
(src/unnamed/part_000 lines 263-272). -/
structure FadePlan where
  fadeDuration : ℚ
  fadeStartTime : ℚ
  rampEndTime : ℚ
  floor : ℚ
  deriving DecidableEq

/-- The fade-envelope planning of handleExport (src/unnamed/part_000 lines
260-272): engaged exactly when the behavior is fade and
`totalSlideshowDuration < musicDuration` holds under IEEE comparison (false
whenever musicDuration is NaN, true for +∞); FADE_DURATION is
`Math.min(2, transitionDuration)` and the ramp ends at 0.001 at
totalSlideshowDuration. -/
def planEnvelope (musicBehavior : MusicBehavior) (totalSlideshowDuration : ℚ)
    (musicDuration : JsNum) (transitionDuration : ℚ) : Option FadePlan :=
  if musicBehavior = MusicBehavior.fade ∧
      jsLt (JsNum.num totalSlideshowDuration) musicDuration then
    let fadeDuration := min 2 transitionDuration
    some ⟨fadeDuration, totalSlideshowDuration - fadeDuration,
      totalSlideshowDuration, 0.001⟩
  else
    Option.none

/-- Web Audio evaluation of the gain automation handleExport schedules
(src/unnamed/part_000 lines 267-271): setValueAtTime(1, 0); when
fadeStartTime > 0 another setValueAtTime(1, fadeStartTime); then
linearRampToValueAtTime(floor, rampEndTime) ramps linearly from the previous
event.  With no plan the gain node keeps its default constant value 1. -/
def gainAt (plan : Option FadePlan) (t : ℚ) : ℚ :=
  match plan with
  | Option.none => 1
  | some p =>
    let rampStart := if 0 < p.fadeStartTime then p.fadeStartTime else 0
    if t ≤ rampStart then 1
    else if t < p.rampEndTime then
      1 + (p.floor - 1) * ((t - rampStart) / (p.rampEndTime - rampStart))
    else p.floor

/-- The export audio element's loop flag (src/unnamed/part_000 line 252). -/
def exportAudioLoopFlag (musicBehavior : MusicBehavior) : Bool :=
  musicBehavior = MusicBehavior.loop

/-- The start-offset computation of handlePlayPause (src/unnamed/part_000 lines
76-82): `startTime % duration` when the duration is truthy and finite, else 0. -/
def computeStartOffset (currentSlideIndex : ℕ) (period : ℚ) (duration : JsNum) : ℚ :=
  let startTime := (currentSlideIndex : ℚ) * period
  match duration with
  | JsNum.num d => if d ≠ 0 then jsMod startTime d else 0
  | _ => 0

/-- How the audio-setup try block of handleExport (src/unnamed/part_000 lines
222-282) can end: the element became ready (carrying its duration), its load
errored, the 10-second readiness timeout fired, or constructing the
AudioContext / its nodes threw. -/
inductive AudioSetupOutcome
  | ready (duration : JsNum)
  | loadError
  | loadTimeout
  | contextError
  deriving DecidableEq

/-- Whether the try block ran to completion. -/
def audioSetupSucceeded : AudioSetupOutcome → Bool
  | AudioSetupOutcome.ready _ => true
  | _ => false

/-- The readiness timeout handleExport arms (src/unnamed/part_000 line 237),
in milliseconds. -/
def audioReadyTimeoutMs : ℕ := 10000

/-- The state handleExport is in when it reaches the recorder / rendering part:
whether an export audio element is still held (none once released), whether a
warning was written to the export-progress channel, and whether control
proceeds to recorder.start() and the render loop. -/
structure ExportAudioPrep where
  exportAudio : Option JsNum
  warningSurfaced : Bool
  proceedsToRender : Bool
  deriving DecidableEq

/-- The audio setup of handleExport (src/unnamed/part_000 lines 219-282): with
no music the block is skipped; a successful try keeps the export audio element;
any failure is caught locally — the catch block logs, writes the warning to the
progress channel, pauses and nulls the export audio element — and control
falls through to the recorder and render loop in every case. -/
def setupExportAudio (hasMusic : Bool) (outcome : AudioSetupOutcome) :
    ExportAudioPrep :=
  if hasMusic then
    match outcome with
    | AudioSetupOutcome.ready d => ⟨some d, false, true⟩
    | _ => ⟨Option.none, true, true⟩
  else ⟨Option.none, false, true⟩

/-! Helper lemmas about the JsNum arithmetic. -/

theorem jsMul_num (a b : ℚ) : jsMul (JsNum.num a) (JsNum.num b) = JsNum.num (a * b) := rfl

theorem jsAdd_num (a b : ℚ) : jsAdd (JsNum.num a) (JsNum.num b) = JsNum.num (a + b) := rfl

theorem jsSub_num (a b : ℚ) : jsSub (JsNum.num a) (JsNum.num b) = JsNum.num (a - b) := by
  simp [jsSub, jsAdd, jsNeg, sub_eq_add_neg]

theorem jsDiv_num (a b : ℚ) (hb : b ≠ 0) :
    jsDiv (JsNum.num a) (JsNum.num b) = JsNum.num (a / b) := by
  simp [jsDiv, hb]

theorem jsGt_num (a b : ℚ) : jsGt (JsNum.num a) (JsNum.num b) = decide (b < a) := rfl

theorem jsLt_nan_right (a : JsNum) : jsLt a JsNum.nan = false := by
  cases a <;> rfl

theorem jsDiv_nan_right (a : JsNum) : jsDiv a JsNum.nan = JsNum.nan := by
  cases a <;> rfl

/-- For a nonnegative dividend and positive divisor the JavaScript remainder is
the mathematical one. -/
theorem jsMod_nonneg_pos (x d : ℚ) (hx : 0 ≤ x) (hd : 0 < d) :
    jsMod x d = x - d * ⌊x / d⌋ := by
  unfold jsMod jsTrunc
  rw [if_pos (div_nonneg hx hd.le)]

/-- Claim C6: the audio playback start offset is
(currentSlideIndex × period) mod trackDuration for a finite positive track
duration, and 0 when the duration is unknown (NaN) or non-finite. -/
theorem computeStartOffset_spec (currentSlideIndex : ℕ) (period d : ℚ)
    (hperiod : 0 ≤ period) (hd : 0 < d) :
    computeStartOffset currentSlideIndex period (JsNum.num d) =
      (currentSlideIndex : ℚ) * period -
        d * ⌊(currentSlideIndex : ℚ) * period / d⌋ ∧
    computeStartOffset currentSlideIndex period JsNum.nan = 0 ∧
    computeStartOffset currentSlideIndex period JsNum.posInf = 0 ∧
    computeStartOffset currentSlideIndex period JsNum.negInf = 0 := by
  refine ⟨?_, rfl, rfl, rfl⟩
  show (if d ≠ 0 then jsMod ((currentSlideIndex : ℚ) * period) d else 0) = _
  rw [if_pos hd.ne',
    jsMod_nonneg_pos _ _ (mul_nonneg (Nat.cast_nonneg _) hperiod) hd]

/-- Witness for computeStartOffset_spec at the spec's worked example:
index 2, period 5, track duration 12 give offset 10. -/
theorem computeStartOffset_spec_witness :
    0 ≤ (5 : ℚ) ∧ 0 < (12 : ℚ) ∧ computeStartOffset 2 5 (JsNum.num 12) = 10 := by
  refine ⟨by norm_num, by norm_num, ?_⟩
  have h := (computeStartOffset_spec 2 5 12 (by norm_num) (by norm_num)).1
  rw [h]
  norm_num

/-- Claim C5 counterexample: a +∞ track duration is non-finite, yet the IEEE
comparison totalSlideshowDuration < duration holds, so handleExport does plan
the fade envelope — refuting "never when the track duration is
non-finite/unknown". -/
theorem planEnvelope_infinite_counterexample :
    planEnvelope MusicBehavior.fade 10 JsNum.posInf 1 = some ⟨1, 9, 10, 0.001⟩ ∧
    planEnvelope MusicBehavior.fade 10 JsNum.posInf 1 ≠ Option.none := by
  have h : planEnvelope MusicBehavior.fade 10 JsNum.posInf 1 =
      some ⟨1, 9, 10, 0.001⟩ := by
    norm_num [planEnvelope, jsLt]
  exact ⟨h, by rw [h]; exact Option.some_ne_none _⟩

/-- Claim C5 (amended): in fade-out mode the envelope is planned exactly when
totalSlideshowDuration < trackDuration under IEEE comparison — never for an
unknown (NaN) duration, though a +∞ duration does satisfy it; when planned,
fadeDuration = min(2, transitionDuration) and fadeStart = total − fadeDuration,
the gain holds at 1 up to a positive fadeStart, ramps linearly to the 0.001
floor at t = total (from t = 0 when fadeStart ≤ 0), and in loop mode no
envelope is planned, the gain stays 1 and the element's loop flag repeats the
track. -/
theorem fade_envelope_spec (total td t d rs : ℚ) :
    planEnvelope MusicBehavior.fade total JsNum.nan td = Option.none ∧
    planEnvelope MusicBehavior.fade total JsNum.posInf td =
      some ⟨min 2 td, total - min 2 td, total, 0.001⟩ ∧
    (total < d → planEnvelope MusicBehavior.fade total (JsNum.num d) td =
      some ⟨min 2 td, total - min 2 td, total, 0.001⟩) ∧
    (¬ total < d →
      planEnvelope MusicBehavior.fade total (JsNum.num d) td = Option.none) ∧
    planEnvelope MusicBehavior.loop total (JsNum.num d) td = Option.none ∧
    gainAt Option.none t = 1 ∧
    exportAudioLoopFlag MusicBehavior.loop = true ∧
    (0 < total - min 2 td → 0 ≤ t → t ≤ total - min 2 td →
      gainAt (some ⟨min 2 td, total - min 2 td, total, 0.001⟩) t = 1) ∧
    (0 < min 2 td → 0 < total →
      gainAt (some ⟨min 2 td, total - min 2 td, total, 0.001⟩) total = 0.001) ∧
    (rs = (if 0 < total - min 2 td then total - min 2 td else 0) → rs < t →
      t < total →
      gainAt (some ⟨min 2 td, total - min 2 td, total, 0.001⟩) t =
        1 + (0.001 - 1) * ((t - rs) / (total - rs))) ∧
    (total - min 2 td ≤ 0 → 0 < t → t < total →
      gainAt (some ⟨min 2 td, total - min 2 td, total, 0.001⟩) t =
        1 + (0.001 - 1) * (t / total)) ∧
    planEnvelope MusicBehavior.fade 10 (JsNum.num 20) 1 = some ⟨1, 9, 10, 0.001⟩ ∧
    gainAt (some ⟨1, 9, 10, 0.001⟩) 5 = 1 ∧
    gainAt (some ⟨1, 9, 10, 0.001⟩) 9 = 1 ∧
    gainAt (some ⟨1, 9, 10, 0.001⟩) 10 = 0.001 := by
  refine ⟨by simp [planEnvelope, jsLt], by simp [planEnvelope, jsLt], ?_, ?_,
    by simp [planEnvelope], rfl, rfl, ?_, ?_, ?_, ?_,
    by norm_num [planEnvelope, jsLt], by norm_num [gainAt],
    by norm_num [gainAt], by norm_num [gainAt]⟩
  · intro h
    simp [planEnvelope, jsLt, h]
  · intro h
    simp [planEnvelope, jsLt, h]
  · intro hfs h0t hts
    simp only [gainAt]
    rw [if_pos hfs, if_pos hts]
  · intro hfd htotal
    simp only [gainAt]
    split_ifs with h1 h2 h3 h4 <;> first | rfl | linarith
  · intro hrs hrt htt
    simp only [gainAt]
    rw [← hrs, if_neg (not_le.mpr hrt), if_pos htt]
  · intro hfs h0t htt
    simp only [gainAt]
    rw [if_neg (not_lt.mpr hfs), if_neg (not_le.mpr h0t), if_pos htt]
    norm_num

/-- Witness for fade_envelope_spec at the spec's worked example:
total 10, track duration 20, transition duration 1. -/
theorem fade_envelope_spec_witness :
    (10 : ℚ) < 20 ∧
    planEnvelope MusicBehavior.fade 10 (JsNum.num 20) 1 =
      some ⟨min 2 1, 10 - min 2 1, 10, 0.001⟩ := by
  refine ⟨by norm_num, ?_⟩
  exact (fade_envelope_spec 10 1 0 20 0).2.2.1 (by norm_num)

/-- Claim C10: every audio-setup failure (load error, 10-second readiness
timeout, AudioContext construction throw) is recovered locally by the catch
block: the warning reaches the progress channel, the export audio element is
released, and control still proceeds to the recorder and the render loop. -/
theorem audio_setup_failure_spec (outcome : AudioSetupOutcome)
    (h : audioSetupSucceeded outcome = false) :
    setupExportAudio true outcome = ⟨Option.none, true, true⟩ ∧
    (setupExportAudio true outcome).proceedsToRender = true ∧
    (setupExportAudio true outcome).exportAudio = Option.none ∧
    (setupExportAudio true outcome).warningSurfaced = true ∧
    audioReadyTimeoutMs = 10000 := by
  cases outcome with
  | ready d => simp [audioSetupSucceeded] at h
  | loadError => exact ⟨rfl, rfl, rfl, rfl, rfl⟩
  | loadTimeout => exact ⟨rfl, rfl, rfl, rfl, rfl⟩
  | contextError => exact ⟨rfl, rfl, rfl, rfl, rfl⟩

/-- Witness for audio_setup_failure_spec at the readiness-timeout outcome. -/
theorem audio_setup_failure_spec_witness :
    audioSetupSucceeded AudioSetupOutcome.loadTimeout = false ∧
    setupExportAudio true AudioSetupOutcome.loadTimeout = ⟨Option.none, true, true⟩ :=
  ⟨rfl, (audio_setup_failure_spec AudioSetupOutcome.loadTimeout rfl).1⟩

/-- Claim C9: a slide whose image fails to decode gets the 0×0 blank
placeholder from the loader; drawSlideWithMotion still runs on it — its
unguarded aspect-ratio division produces NaN, the render height is NaN, the
drawImage call paints nothing — so the slide's frames degrade to the opaque
black background fill and the export continues for every motion and progress. -/
theorem decode_failure_blank_frame (slide : ImageSlide) (decoded : Img)
    (width height progress : ℚ) :
    loadSlideImage false decoded = blankImage ∧
    (coverPlacement width height
        (motionTransform slide.motion progress width height) blankImage).renderHeight =
      JsNum.nan ∧
    drawSlideWithMotion width height slide (loadSlideImage false decoded) progress 1 =
      [CanvasOp.fillRect 1,
       CanvasOp.drawImageOp blankImage
         (coverPlacement width height
           (motionTransform slide.motion progress width height) blankImage)
         (motionTransform slide.motion progress width height).rotationPerPi 1] ∧
    effectiveOps
        (drawSlideWithMotion width height slide (loadSlideImage false decoded)
          progress 1) =
      [CanvasOp.fillRect 1] := by
  refine ⟨rfl, ?_, rfl, ?_⟩
  · simp [coverPlacement, blankImage, jsDiv, jsGt, jsLt_nan_right, jsDiv_nan_right,
      jsMul_num]
  · simp [effectiveOps, drawSlideWithMotion, canvasOpSkipped, loadSlideImage,
      blankImage, List.filter]

/-- Claim C1 counterexample: at elapsed 14.5 (slideCount 3, slideDuration 4,
transitionDuration 1) timeInPeriod = 4.5 ≥ slideDuration and the claim's
"otherwise" clause demands Transitioning with progress 0.5, but the code holds
the last slide: the phase is Steady(2, 1). -/
theorem scheduler_phase_counterexample :
    locate (29/2) 4 1 3 = Phase.Steady 2 1 ∧
    Phase.Steady 2 (1 : ℚ) ≠ Phase.Transitioning 2 3 (1/2) := by
  constructor
  · norm_num [locate, jsMod, jsTrunc]
  · intro h
    exact Phase.noConfusion h

/-- Claim C1 (amended): for elapsed below the total duration the scheduler is
Steady(slideIndex, timeInPeriod/slideDuration) when timeInPeriod <
slideDuration or transitionDuration = 0, Transitioning(slideIndex,
slideIndex+1, (timeInPeriod−slideDuration)/transitionDuration) otherwise
provided slideIndex+1 < slideCount, and — the correction — Steady(slideIndex,
1) in the transition window of the last slide (slideIndex+1 ≥ slideCount); it
is End when elapsed ≥ slideCount × period.  The claim's worked examples
locate(0), locate(4.5) and locate(15) hold as stated. -/
theorem scheduler_phase_spec (elapsed slideDuration transitionDuration : ℚ)
    (slideCount : ℕ) (si : ℤ) (tip : ℚ)
    (h0 : 0 ≤ elapsed) (hsd : 0 < slideDuration) (htd : 0 ≤ transitionDuration)
    (hsi : si = ⌊elapsed / (slideDuration + transitionDuration)⌋)
    (htip : tip = elapsed - (slideDuration + transitionDuration) * si) :
    ((slideCount : ℚ) * (slideDuration + transitionDuration) ≤ elapsed →
      locate elapsed slideDuration transitionDuration slideCount = Phase.End) ∧
    (elapsed < (slideCount : ℚ) * (slideDuration + transitionDuration) →
      (tip < slideDuration ∨ transitionDuration = 0 →
        locate elapsed slideDuration transitionDuration slideCount =
          Phase.Steady si (tip / slideDuration)) ∧
      (slideDuration ≤ tip → transitionDuration ≠ 0 →
        (si + 1 < (slideCount : ℤ) →
          locate elapsed slideDuration transitionDuration slideCount =
            Phase.Transitioning si (si + 1)
              ((tip - slideDuration) / transitionDuration)) ∧
        ((slideCount : ℤ) ≤ si + 1 →
          locate elapsed slideDuration transitionDuration slideCount =
            Phase.Steady si 1))) ∧
    locate 0 4 1 3 = Phase.Steady 0 0 ∧
    locate (9/2) 4 1 3 = Phase.Transitioning 0 1 (1/2) ∧
    locate 15 4 1 3 = Phase.End := by
  have hP : 0 < slideDuration + transitionDuration := by linarith
  have hmod : jsMod elapsed (slideDuration + transitionDuration) = tip := by
    rw [jsMod_nonneg_pos _ _ h0 hP, htip, hsi]
  refine ⟨?_, ?_, by norm_num [locate, jsMod, jsTrunc],
    by norm_num [locate, jsMod, jsTrunc], by norm_num [locate]⟩
  · intro h
    simp only [locate]
    rw [if_pos h]
  · intro hlt
    refine ⟨?_, ?_⟩
    · intro hcond
      simp only [locate]
      rw [if_neg (not_le.mpr hlt), hmod, ← hsi, if_pos hcond]
    · intro h1 h2
      have hcond : ¬ (tip < slideDuration ∨ transitionDuration = 0) := by
        rw [not_or]
        exact ⟨not_lt.mpr h1, h2⟩
      refine ⟨?_, ?_⟩
      · intro hsucc
        simp only [locate]
        rw [if_neg (not_le.mpr hlt), hmod, ← hsi, if_neg hcond,
          if_neg (not_le.mpr hsucc)]
      · intro hlast
        simp only [locate]
        rw [if_neg (not_le.mpr hlt), hmod, ← hsi, if_neg hcond, if_pos hlast]

/-- Witness for scheduler_phase_spec at the claim's own transition example:
elapsed 4.5 with slideCount 3, slideDuration 4, transitionDuration 1. -/
theorem scheduler_phase_spec_witness :
    0 ≤ (9/2 : ℚ) ∧ 0 < (4 : ℚ) ∧ 0 ≤ (1 : ℚ) ∧
    (0 : ℤ) = ⌊(9/2 : ℚ) / (4 + 1)⌋ ∧
    (9/2 : ℚ) = 9/2 - (4 + 1) * ((0 : ℤ) : ℚ) ∧
    locate (9/2) 4 1 3 = Phase.Transitioning 0 (0 + 1) ((9/2 - 4) / 1) := by
  refine ⟨by norm_num, by norm_num, by norm_num, by norm_num, by norm_num, ?_⟩
  have h := scheduler_phase_spec (9/2) 4 1 3 0 (9/2) (by norm_num) (by norm_num)
    (by norm_num) (by norm_num) (by norm_num)
  exact ((h.2.1 (by norm_num)).2 (by norm_num) (by norm_num)).1 (by norm_num)

/-- Claim C3 counterexample: at elapsed 14.9 the held last slide has progress
exactly 1 — the phase is Steady(2, 1), not the Steady(2, ~0.975) the claim's
worked example states. -/
theorem last_slide_hold_counterexample :
    locate (149/10) 4 1 3 = Phase.Steady 2 1 ∧
    Phase.Steady 2 (1 : ℚ) ≠ Phase.Steady 2 (39/40 : ℚ) := by
  constructor
  · norm_num [locate, jsMod, jsTrunc]
  · intro h
    rw [Phase.Steady.injEq] at h
    exact absurd h.2 (by norm_num)

/-- Claim C3 (amended): in the transition window of the last slide
(timeInPeriod ≥ slideDuration, transitionDuration > 0, no successor) the
scheduler degrades to Steady(fromIndex, 1) and render() draws exactly that one
slide at motion progress 1 with no second draw and no blending; the corrected
worked example is locate(14.9) = Steady(2, 1). -/
theorem last_slide_hold (elapsed slideDuration transitionDuration width height : ℚ)
    (slideCount : ℕ) (effect : TransitionEffect)
    (slideAt : ℤ → ImageSlide) (imageAt : ℤ → Img) (si : ℤ)
    (h0 : 0 ≤ elapsed) (hsd : 0 < slideDuration) (htd : 0 < transitionDuration)
    (hsi : si = ⌊elapsed / (slideDuration + transitionDuration)⌋)
    (hlt : elapsed < (slideCount : ℚ) * (slideDuration + transitionDuration))
    (htip : slideDuration ≤ elapsed - (slideDuration + transitionDuration) * si)
    (hlast : (slideCount : ℤ) ≤ si + 1) :
    locate elapsed slideDuration transitionDuration slideCount = Phase.Steady si 1 ∧
    renderFrame ⟨slideDuration, transitionDuration, effect⟩ slideCount slideAt
        imageAt width height elapsed =
      drawSlideWithMotion width height (slideAt si) (imageAt si) 1 1 ∧
    locate (149/10) 4 1 3 = Phase.Steady 2 1 := by
  have hP : 0 < slideDuration + transitionDuration := by linarith
  have hmod : jsMod elapsed (slideDuration + transitionDuration) =
      elapsed - (slideDuration + transitionDuration) * si := by
    rw [jsMod_nonneg_pos _ _ h0 hP, hsi]
  have hcond : ¬ (elapsed - (slideDuration + transitionDuration) * si <
      slideDuration ∨ transitionDuration = 0) := by
    rw [not_or]
    exact ⟨not_lt.mpr htip, htd.ne'⟩
  refine ⟨?_, ?_, by norm_num [locate, jsMod, jsTrunc]⟩
  · simp only [locate]
    rw [if_neg (not_le.mpr hlt), hmod, ← hsi, if_neg hcond, if_pos hlast]
  · simp only [renderFrame]
    rw [if_neg (not_le.mpr hlt), hmod, ← hsi, if_neg hcond, if_pos hlast]

/-- Witness for last_slide_hold at elapsed 14.5 with slideCount 3,
slideDuration 4, transitionDuration 1 (slide index 2, the last). -/
theorem last_slide_hold_witness :
    0 ≤ (29/2 : ℚ) ∧ 0 < (4 : ℚ) ∧ 0 < (1 : ℚ) ∧
    (2 : ℤ) = ⌊(29/2 : ℚ) / (4 + 1)⌋ ∧
    (29/2 : ℚ) < 3 * (4 + 1) ∧
    (4 : ℚ) ≤ 29/2 - (4 + 1) * ((2 : ℤ) : ℚ) ∧
    ((3 : ℕ) : ℤ) ≤ 2 + 1 ∧
    locate (29/2) 4 1 3 = Phase.Steady 2 1 := by
  refine ⟨by norm_num, by norm_num, by norm_num, by norm_num, by norm_num,
    by norm_num, by norm_num, ?_⟩
  have h := last_slide_hold (29/2) 4 1 1280 720 3 TransitionEffect.fade
    (fun _ => ⟨0, MotionEffect.zoomIn⟩) (fun _ => ⟨16, 9⟩) 2
    (by norm_num) (by norm_num) (by norm_num) (by norm_num) (by norm_num)
    (by norm_num) (by norm_num)
  exact h.1

/-- Claim C8: for every rendered frame (0 ≤ elapsed < slideCount × period,
period > 0) the unwrapped slide index ⌊elapsed / period⌋ satisfies
0 ≤ slideIndex < slideCount, so the slides and loadedImages accesses are in
bounds; and whenever the scheduler yields Transitioning, the successor index
is slideIndex + 1 and is itself below slideCount. -/
theorem export_index_bounds (elapsed slideDuration transitionDuration : ℚ)
    (slideCount : ℕ)
    (h0 : 0 ≤ elapsed) (hsd : 0 < slideDuration) (htd : 0 ≤ transitionDuration)
    (hlt : elapsed < (slideCount : ℚ) * (slideDuration + transitionDuration)) :
    0 ≤ ⌊elapsed / (slideDuration + transitionDuration)⌋ ∧
    ⌊elapsed / (slideDuration + transitionDuration)⌋ < (slideCount : ℤ) ∧
    (∀ i j p, locate elapsed slideDuration transitionDuration slideCount =
        Phase.Transitioning i j p →
      j = i + 1 ∧ 0 ≤ i ∧ j < (slideCount : ℤ)) := by
  have hP : 0 < slideDuration + transitionDuration := by linarith
  have h1 : 0 ≤ ⌊elapsed / (slideDuration + transitionDuration)⌋ :=
    Int.floor_nonneg.mpr (div_nonneg h0 hP.le)
  have h2 : ⌊elapsed / (slideDuration + transitionDuration)⌋ < (slideCount : ℤ) := by
    rw [Int.floor_lt]
    push_cast
    rw [div_lt_iff hP]
    linarith
  refine ⟨h1, h2, ?_⟩
  intro i j p hloc
  simp only [locate] at hloc
  by_cases hEnd : (slideCount : ℚ) * (slideDuration + transitionDuration) ≤ elapsed
  · rw [if_pos hEnd] at hloc
    exact Phase.noConfusion hloc
  · rw [if_neg hEnd] at hloc
    by_cases hSteady : jsMod elapsed (slideDuration + transitionDuration) <
        slideDuration ∨ transitionDuration = 0
    · rw [if_pos hSteady] at hloc
      exact Phase.noConfusion hloc
    · rw [if_neg hSteady] at hloc
      by_cases hLast : (slideCount : ℤ) ≤
          ⌊elapsed / (slideDuration + transitionDuration)⌋ + 1
      · rw [if_pos hLast] at hloc
        exact Phase.noConfusion hloc
      · rw [if_neg hLast] at hloc
        rw [Phase.Transitioning.injEq] at hloc
        obtain ⟨hi, hj, -⟩ := hloc
        rw [not_le] at hLast
        exact ⟨by omega, by omega, by omega⟩

/-- Witness for export_index_bounds at elapsed 7 with slideCount 3,
slideDuration 4, transitionDuration 1: slide index 1. -/
theorem export_index_bounds_witness :
    0 ≤ (7 : ℚ) ∧ 0 < (4 : ℚ) ∧ 0 ≤ (1 : ℚ) ∧ (7 : ℚ) < 3 * (4 + 1) ∧
    0 ≤ ⌊(7 : ℚ) / (4 + 1)⌋ ∧ ⌊(7 : ℚ) / (4 + 1)⌋ < ((3 : ℕ) : ℤ) := by
  have h := export_index_bounds 7 4 1 3 (by norm_num) (by norm_num) (by norm_num)
    (by norm_num)
  exact ⟨by norm_num, by norm_num, by norm_num, by norm_num, h.1, h.2.1⟩

/-- Claim C4: in a transition frame with a successor the compositor writes,
into the same trace, an opaque black fill, the from-slide's image at its
progress-1 transform at full opacity, then — under globalAlpha =
transitionProgress — the to-slide's background fill and its image at its
progress-0 transform; and the result is independent of the stored
transition-effect selection (always the linear alpha cross-fade). -/
theorem transition_crossfade (elapsed slideDuration transitionDuration
      width height : ℚ) (slideCount : ℕ) (e1 e2 : TransitionEffect)
    (slideAt : ℤ → ImageSlide) (imageAt : ℤ → Img) (si : ℤ) (tp : ℚ)
    (h0 : 0 ≤ elapsed) (hsd : 0 < slideDuration) (htd : 0 < transitionDuration)
    (hsi : si = ⌊elapsed / (slideDuration + transitionDuration)⌋)
    (hlt : elapsed < (slideCount : ℚ) * (slideDuration + transitionDuration))
    (htip : slideDuration ≤ elapsed - (slideDuration + transitionDuration) * si)
    (hsucc : si + 1 < (slideCount : ℤ))
    (htp : tp = (elapsed - (slideDuration + transitionDuration) * si -
      slideDuration) / transitionDuration) :
    renderFrame ⟨slideDuration, transitionDuration, e1⟩ slideCount slideAt imageAt
        width height elapsed =
      [CanvasOp.fillRect 1,
       CanvasOp.drawImageOp (imageAt si)
         (coverPlacement width height
           (motionTransform (slideAt si).motion 1 width height) (imageAt si))
         (motionTransform (slideAt si).motion 1 width height).rotationPerPi 1,
       CanvasOp.fillRect tp,
       CanvasOp.drawImageOp (imageAt (si + 1))
         (coverPlacement width height
           (motionTransform (slideAt (si + 1)).motion 0 width height)
           (imageAt (si + 1)))
         (motionTransform (slideAt (si + 1)).motion 0 width height).rotationPerPi
         tp] ∧
    renderFrame ⟨slideDuration, transitionDuration, e1⟩ slideCount slideAt imageAt
        width height elapsed =
      renderFrame ⟨slideDuration, transitionDuration, e2⟩ slideCount slideAt
        imageAt width height elapsed := by
  have hP : 0 < slideDuration + transitionDuration := by linarith
  have hmod : jsMod elapsed (slideDuration + transitionDuration) =
      elapsed - (slideDuration + transitionDuration) * si := by
    rw [jsMod_nonneg_pos _ _ h0 hP, hsi]
  have hcond : ¬ (elapsed - (slideDuration + transitionDuration) * si <
      slideDuration ∨ transitionDuration = 0) := by
    rw [not_or]
    exact ⟨not_lt.mpr htip, htd.ne'⟩
  refine ⟨?_, rfl⟩
  simp only [renderFrame]
  rw [if_neg (not_le.mpr hlt), hmod, ← hsi, if_neg hcond,
    if_neg (not_le.mpr hsucc), htp]
  simp [drawSlideWithMotion]

/-- Witness for transition_crossfade: the transition-effect independence at
elapsed 4.5 with slideCount 3, slideDuration 4, transitionDuration 1. -/
theorem transition_crossfade_witness :
    0 ≤ (9/2 : ℚ) ∧ 0 < (4 : ℚ) ∧ 0 < (1 : ℚ) ∧
    (0 : ℤ) = ⌊(9/2 : ℚ) / (4 + 1)⌋ ∧
    (9/2 : ℚ) < 3 * (4 + 1) ∧
    (4 : ℚ) ≤ 9/2 - (4 + 1) * ((0 : ℤ) : ℚ) ∧
    (0 : ℤ) + 1 < ((3 : ℕ) : ℤ) ∧
    renderFrame ⟨4, 1, TransitionEffect.slide⟩ 3
        (fun _ => ⟨0, MotionEffect.zoomIn⟩) (fun _ => ⟨16, 9⟩) 1280 720 (9/2) =
      renderFrame ⟨4, 1, TransitionEffect.fade⟩ 3
        (fun _ => ⟨0, MotionEffect.zoomIn⟩) (fun _ => ⟨16, 9⟩) 1280 720 (9/2) := by
  refine ⟨by norm_num, by norm_num, by norm_num, by norm_num, by norm_num,
    by norm_num, by norm_num, ?_⟩
  have h := transition_crossfade (9/2) 4 1 1280 720 3 TransitionEffect.slide
    TransitionEffect.fade (fun _ => ⟨0, MotionEffect.zoomIn⟩) (fun _ => ⟨16, 9⟩)
    0 ((9/2 - (4 + 1) * ((0 : ℤ) : ℚ) - 4) / 1)
    (by norm_num) (by norm_num) (by norm_num) (by norm_num) (by norm_num)
    (by norm_num) (by norm_num) rfl
  exact h.2

/-- The JsNum cover-fit arithmetic agrees with the spec's rational cover-fit
formulas whenever the frame and the image have positive dimensions. -/
theorem coverPlacement_eq_spec (width height iw ih : ℚ) (t : MotionTransform)
    (hW : 0 < width) (hH : 0 < height) (hiw : 0 < iw) (hih : 0 < ih) :
    coverPlacement width height t ⟨iw, ih⟩ = coverFitSpec width height t iw ih := by
  have hih' : ih ≠ 0 := hih.ne'
  have hH' : height ≠ 0 := hH.ne'
  have h2 : (2 : ℚ) ≠ 0 := two_ne_zero
  have hasp : iw / ih ≠ 0 := div_ne_zero hiw.ne' hih'
  simp only [coverPlacement, coverFitSpec, jsDiv_num _ _ hih', jsDiv_num _ _ hH',
    jsGt_num]
  by_cases hcmp : width / height < iw / ih
  · rw [if_pos (decide_eq_true hcmp), if_pos hcmp]
    simp only [jsMul_num, jsSub_num, jsAdd_num, jsDiv_num _ _ h2]
  · rw [if_neg (by simp [hcmp]), if_neg hcmp]
    simp only [jsMul_num, jsDiv_num _ _ hasp, jsSub_num, jsAdd_num,
      jsDiv_num _ _ h2]

/-- Claim C2: the motion transform is the claimed pure function of the motion
kind and progress (base scale 1.15, pans moving a tenth of the frame
dimension, rotation ±1 degree about progress 0.5, stored as a multiple of π),
and the image placement is the cover fit of the spec at the transform's scale,
centered and then offset by (dx, dy). -/
theorem motion_transform_spec (motion : MotionEffect) (p width height iw ih : ℚ)
    (hW : 0 < width) (hH : 0 < height) (hiw : 0 < iw) (hih : 0 < ih) :
    motionTransform MotionEffect.none p width height = ⟨1, 0, 0, 0⟩ ∧
    motionTransform MotionEffect.zoomIn p width height =
      ⟨1 + p * 0.15, 0, 0, 0⟩ ∧
    motionTransform MotionEffect.zoomOut p width height =
      ⟨1.15 - p * 0.15, 0, 0, 0⟩ ∧
    motionTransform MotionEffect.panLeft p width height =
      ⟨1.15, (0.5 - p) * 0.1 * width, 0, 0⟩ ∧
    motionTransform MotionEffect.panRight p width height =
      ⟨1.15, (p - 0.5) * 0.1 * width, 0, 0⟩ ∧
    motionTransform MotionEffect.panUp p width height =
      ⟨1.15, 0, (0.5 - p) * 0.1 * height, 0⟩ ∧
    motionTransform MotionEffect.panDown p width height =
      ⟨1.15, 0, (p - 0.5) * 0.1 * height, 0⟩ ∧
    motionTransform MotionEffect.rotate p width height =
      ⟨1.2, 0, 0, (p - 0.5) * 2 / 180⟩ ∧
    coverPlacement width height (motionTransform motion p width height) ⟨iw, ih⟩ =
      coverFitSpec width height (motionTransform motion p width height) iw ih := by
  refine ⟨?_, ?_, ?_, ?_, ?_, ?_, ?_, ?_,
    coverPlacement_eq_spec _ _ _ _ _ hW hH hiw hih⟩
  all_goals simp only [motionTransform]
  all_goals try rw [MotionTransform.mk.injEq]
  all_goals try refine ⟨?_, ?_, ?_, ?_⟩
  all_goals first | rfl | ring | norm_num

/-- Witness for motion_transform_spec at zoom-in, progress 1/2, a 1280×720
frame and a 16:9 image. -/
theorem motion_transform_spec_witness :
    0 < (1280 : ℚ) ∧ 0 < (720 : ℚ) ∧ 0 < (16 : ℚ) ∧ 0 < (9 : ℚ) ∧
    motionTransform MotionEffect.zoomIn (1/2) 1280 720 =
      ⟨1 + (1/2) * 0.15, 0, 0, 0⟩ ∧
    coverPlacement 1280 720 (motionTransform MotionEffect.zoomIn (1/2) 1280 720)
        ⟨16, 9⟩ =
      coverFitSpec 1280 720 (motionTransform MotionEffect.zoomIn (1/2) 1280 720)
        16 9 := by
  have h := motion_transform_spec MotionEffect.zoomIn (1/2) 1280 720 16 9
    (by norm_num) (by norm_num) (by norm_num) (by norm_num)
  exact ⟨by norm_num, by norm_num, by norm_num, by norm_num, h.2.1,
    h.2.2.2.2.2.2.2.2⟩

/-- Run lemma for the export loop: once the minimal stopping frame N is
characterized, fuel beyond N makes the loop render exactly frames
k, k+1, ..., N−1 and reach the stop branch. -/
theorem renderLoopFuel_run (fps : ℕ) (total : ℚ) (N : ℕ) (hf : 0 < fps)
    (hN1 : ∀ m : ℕ, m < N → (m : ℚ) / (fps : ℚ) < total)
    (hN2 : total ≤ (N : ℚ) / (fps : ℚ)) :
    ∀ fuel k : ℕ, N ≤ k + fuel →
      renderLoopFuel (fuel + 1) fps total k = some (List.range' k (N - k)) := by
  have hfQ : (0 : ℚ) < (fps : ℚ) := by exact_mod_cast hf
  intro fuel
  induction fuel with
  | zero =>
    intro k hk
    rw [Nat.add_zero] at hk
    have hstop : total ≤ (k : ℚ) / (fps : ℚ) :=
      le_trans hN2 ((div_le_div_right hfQ).mpr (by exact_mod_cast hk))
    show (if total ≤ (k : ℚ) / (fps : ℚ) then some [] else
      Option.map (fun rest => k :: rest)
        (renderLoopFuel 0 fps total (k + 1))) = _
    rw [if_pos hstop, Nat.sub_eq_zero_of_le hk]
    rfl
  | succ fuel ih =>
    intro k hk
    by_cases hkN : N ≤ k
    · have hstop : total ≤ (k : ℚ) / (fps : ℚ) :=
        le_trans hN2 ((div_le_div_right hfQ).mpr (by exact_mod_cast hkN))
      show (if total ≤ (k : ℚ) / (fps : ℚ) then some [] else
        Option.map (fun rest => k :: rest)
          (renderLoopFuel (fuel + 1) fps total (k + 1))) = _
      rw [if_pos hstop, Nat.sub_eq_zero_of_le hkN]
      rfl
    · push_neg at hkN
      have hnstop : ¬ total ≤ (k : ℚ) / (fps : ℚ) := not_le.mpr (hN1 k hkN)
      show (if total ≤ (k : ℚ) / (fps : ℚ) then some [] else
        Option.map (fun rest => k :: rest)
          (renderLoopFuel (fuel + 1) fps total (k + 1))) = _
      rw [if_neg hnstop, ih (k + 1) (by omega)]
      have hsplit : N - k = (N - (k + 1)) + 1 := by omega
      rw [Option.map_some', hsplit, List.range'_succ]

/-- Claim C7: with positive slide count, period and FPS the export loop
terminates: it renders exactly the frames 0, 1, ..., N−1 in order (the counter
advances by one per iteration), every rendered frame satisfies
frame/FPS < slideCount × period, and the loop reaches the stopping branch at
N = ⌈total × FPS⌉, the first frame index with frame/FPS ≥ total. -/
theorem export_loop_terminates (slideCount fps : ℕ) (period : ℚ)
    (hc : 0 < slideCount) (hf : 0 < fps) (hp : 0 < period) :
    renderLoopFuel (⌈(slideCount : ℚ) * period * (fps : ℚ)⌉₊ + 1) fps
        ((slideCount : ℚ) * period) 0 =
      some (List.range ⌈(slideCount : ℚ) * period * (fps : ℚ)⌉₊) ∧
    (∀ m : ℕ, m < ⌈(slideCount : ℚ) * period * (fps : ℚ)⌉₊ →
      (m : ℚ) / (fps : ℚ) < (slideCount : ℚ) * period) ∧
    (slideCount : ℚ) * period ≤
      (⌈(slideCount : ℚ) * period * (fps : ℚ)⌉₊ : ℚ) / (fps : ℚ) := by
  have hfQ : (0 : ℚ) < (fps : ℚ) := by exact_mod_cast hf
  have hN1 : ∀ m : ℕ, m < ⌈(slideCount : ℚ) * period * (fps : ℚ)⌉₊ →
      (m : ℚ) / (fps : ℚ) < (slideCount : ℚ) * period := by
    intro m hm
    rw [div_lt_iff hfQ]
    exact Nat.lt_ceil.mp hm
  have hN2 : (slideCount : ℚ) * period ≤
      (⌈(slideCount : ℚ) * period * (fps : ℚ)⌉₊ : ℚ) / (fps : ℚ) := by
    rw [le_div_iff hfQ]
    exact Nat.le_ceil _
  refine ⟨?_, hN1, hN2⟩
  have h := renderLoopFuel_run fps ((slideCount : ℚ) * period)
    ⌈(slideCount : ℚ) * period * (fps : ℚ)⌉₊ hf hN1 hN2
    ⌈(slideCount : ℚ) * period * (fps : ℚ)⌉₊ 0 (by omega)
  rw [Nat.sub_zero] at h
  rw [h, List.range_eq_range']

/-- Witness for export_loop_terminates: one slide, period 1 s, 2 FPS — the
loop renders frames 0 and 1 and stops at frame 2. -/
theorem export_loop_terminates_witness :
    0 < 1 ∧ 0 < 2 ∧ 0 < (1 : ℚ) ∧
    renderLoopFuel 3 2 1 0 = some (List.range 2) := by
  refine ⟨by norm_num, by norm_num, by norm_num, ?_⟩
  have h := (export_loop_terminates 1 2 1 (by norm_num) (by norm_num)
    (by norm_num)).1
  norm_num at h
  exact h

end MonDiaporama
